import Mathlib

/-!
Shallow embedding of `src/src/particle_filter.cpp` (a 2-D particle-filter
localization engine) over the reals.  C++ `double` arithmetic is modelled by
`ℝ`.  The pseudo-random draws made by a freshly default-constructed
`std::default_random_engine` are modelled by explicit streams:
a stream `g : Nat → ℝ` of standard-normal variates for the Gaussian noise
(each `normal_distribution(mu, sigma)` draw becomes `mu + sigma * g k`,
consumed in call order), and a stream `u : Nat → ℝ` of uniform `[0,1)`
variates for `std::discrete_distribution` (each categorical draw becomes the
inverse-CDF index of `u k` scaled by the total weight).  Because the engine
is default-constructed inside every call, the same fixed stream is presented
to every call.
-/

/-- Landmark observation, from helper_functions.h (`struct LandmarkObs`):
an identity tag plus 2-D coordinates. -/
structure LandmarkObs where
  id : Int
  x : ℝ
  y : ℝ

/-- One pose hypothesis, from particle_filter.h (`struct Particle`). -/
structure Particle where
  id : Int
  x : ℝ
  y : ℝ
  theta : ℝ
  weight : ℝ
  associations : List Int
  sense_x : List ℝ
  sense_y : List ℝ

/-- One map landmark, from map.h (`Map::single_landmark_s`). -/
structure MapLandmark where
  id_i : Int
  x_f : ℝ
  y_f : ℝ

/-- The landmark map, from map.h (`class Map`). -/
structure Map where
  landmark_list : List MapLandmark

/-- The filter state: the data members of `class ParticleFilter`
(particle_filter.h).  `initFlag` models the C++ member `is_initialized`. -/
structure ParticleFilter where
  num_particles : Nat
  particles : List Particle
  initFlag : Bool

/-- Default landmark-observation value, used only as the `List.getD` default
in statements about in-bounds indices. -/
def obsDefault : LandmarkObs :=
  { id := 0, x := 0, y := 0 }

/-- Default particle value, used as the `List.getD` fallback (the C++ code
indexes `particles[pIdx]` only at in-bounds indices). -/
def particleDefault : Particle :=
  { id := 0, x := 0, y := 0, theta := 0, weight := 0,
    associations := [], sense_x := [], sense_y := [] }

/-- Modelled from the spec: the Euclidean distance helper `dist` of
helper_functions.h, which is not under src/ (spec section 4.1: Euclidean
distance between two 2-D points). -/
noncomputable def distance (x1 y1 x2 y2 : ℝ) : ℝ :=
  Real.sqrt ((x2 - x1) ^ 2 + (y2 - y1) ^ 2)

/-- Modelled from the spec: the bivariate Gaussian density helper
`multiv_prob` of helper_functions.h, which is not under src/ (spec section
4.1 gives the exact formula). -/
noncomputable def multiv_prob (sig_x sig_y x_obs y_obs mu_x mu_y : ℝ) : ℝ :=
  Real.exp (-((x_obs - mu_x) ^ 2 / (2 * sig_x ^ 2) +
      (y_obs - mu_y) ^ 2 / (2 * sig_y ^ 2))) / (2 * Real.pi * sig_x * sig_y)

/-- Modelled from the spec: the default-constructed `ParticleFilter`
(particle_filter.h is not under src/): the `Uninitialized` state with an
empty population. -/
def initialFilter : ParticleFilter :=
  { num_particles := 0, particles := [], initFlag := false }

/-- `ParticleFilter::init` (particle_filter.cpp lines 26-58).  Sets
`num_particles = 100`, then appends 100 particles sampled around
`(x, y, theta)`; particle `n` consumes the standard-normal draws
`g (3*n)`, `g (3*n+1)`, `g (3*n+2)` for its x, y, theta noise, gets
weight 1.0 and id `n`.  Finally sets the initialized flag. -/
noncomputable def ParticleFilter.init (g : Nat → ℝ) (x y theta : ℝ)
    (std0 std1 std2 : ℝ) (s : ParticleFilter) : ParticleFilter :=
  { s with
    num_particles := 100,
    particles := s.particles ++ (List.range 100).map (fun n =>
      { id := n,
        x := x + std0 * g (3 * n),
        y := y + std1 * g (3 * n + 1),
        theta := theta + std2 * g (3 * n + 2),
        weight := 1,
        associations := [], sense_x := [], sense_y := [] }),
    initFlag := true }

/-- The per-particle body of `ParticleFilter::prediction` (lines 75-89):
the bicycle-model update with the `|yaw_rate| > 0.0001` branch, with the
already-drawn noise values `nx ny nth` added per axis. -/
noncomputable def predictOne (dt v yaw_rate nx ny nth : ℝ) (p : Particle) :
    Particle :=
  if |yaw_rate| > 0.0001 then
    { p with
      x := p.x + v / yaw_rate *
        (Real.sin (p.theta + yaw_rate * dt) - Real.sin p.theta) + nx,
      y := p.y + v / yaw_rate *
        (-Real.cos (p.theta + yaw_rate * dt) + Real.cos p.theta) + ny,
      theta := p.theta + yaw_rate * dt + nth }
  else
    { p with
      x := p.x + v * Real.cos p.theta * dt + nx,
      y := p.y + v * Real.sin p.theta * dt + ny,
      theta := p.theta + yaw_rate * dt + nth }

/-- The particle loop of `ParticleFilter::prediction`: particle `n`
consumes the standard-normal draws `g k`, `g (k+1)`, `g (k+2)` scaled by
the per-axis standard deviations (the noise distributions are centered at
0), starting from draw index `k = 0`. -/
noncomputable def predictList (g : Nat → ℝ) (k : Nat)
    (dt std0 std1 std2 v yaw_rate : ℝ) : List Particle → List Particle
  | [] => []
  | p :: ps =>
      predictOne dt v yaw_rate (std0 * g k) (std1 * g (k + 1))
        (std2 * g (k + 2)) p ::
      predictList g (k + 3) dt std0 std1 std2 v yaw_rate ps

/-- `ParticleFilter::prediction` (lines 60-90).  Under the class invariant
`num_particles = particles.length` (established by `init` and preserved by
every operation) the loop over `n < num_particles` visits exactly the
particle list. -/
noncomputable def ParticleFilter.prediction (g : Nat → ℝ)
    (dt std0 std1 std2 v yaw_rate : ℝ) (s : ParticleFilter) :
    ParticleFilter :=
  { s with particles := predictList g 0 dt std0 std1 std2 v yaw_rate s.particles }

/-- The inner fold of `ParticleFilter::dataAssociation` (lines 104-114):
the running `(bestFit, minDist)` pair is replaced whenever a predicted
entry is strictly closer than the current minimum. -/
noncomputable def bestFitFold (ox oy : ℝ) (acc : LandmarkObs × ℝ)
    (pred : LandmarkObs) : LandmarkObs × ℝ :=
  if distance pred.x pred.y ox oy < acc.2 then
    (pred, distance pred.x pred.y ox oy)
  else acc

/-- `ParticleFilter::dataAssociation` (lines 92-118).  Each observation id
becomes the id of the final `bestFit` of a scan starting from
`minDist = 9.9e50` and a default-constructed `LandmarkObs bestFit`; the
indeterminate id of that default-constructed struct is modelled by the
`uninitId` parameter (spec section 4.2 calls it an unset/sentinel
identity; its coordinates are never read).  `predicted` is received by
value, so the callers copy is never mutated. -/
noncomputable def ParticleFilter.dataAssociation (uninitId : Int)
    (predicted observations : List LandmarkObs) : List LandmarkObs :=
  observations.map (fun obs =>
    { obs with
      id := (predicted.foldl (bestFitFold obs.x obs.y)
        ({ id := uninitId, x := 0, y := 0 }, 9.9e50)).1.id })

/-- The inner search of `ParticleFilter::CalculateParticleWeight`
(lines 134-143): first predicted landmark whose id matches, with `break`;
if none matches, `pred_LM_match` keeps its default-constructed
(indeterminate) value, modelled by the parameter `dLM`. -/
noncomputable def findPred (dLM : LandmarkObs) (lmId : Int) :
    List LandmarkObs → LandmarkObs
  | [] => dLM
  | q :: qs => if lmId = q.id then q else findPred dLM lmId qs

/-- The weight product of `ParticleFilter::CalculateParticleWeight`
(lines 127-147): one `multiv_prob` factor per association, reading the
parallel `sense_x`/`sense_y` entries. -/
noncomputable def weightProd (dLM : LandmarkObs) (sig_x sig_y : ℝ)
    (preds : List LandmarkObs) :
    List Int → List ℝ → List ℝ → ℝ
  | lmId :: ids, sx :: sxs, sy :: sys =>
      multiv_prob sig_x sig_y sx sy (findPred dLM lmId preds).x
        (findPred dLM lmId preds).y *
      weightProd dLM sig_x sig_y preds ids sxs sys
  | _, _, _ => 1

/-- `ParticleFilter::CalculateParticleWeight` (lines 124-151): stores the
weight product into the particle. -/
noncomputable def ParticleFilter.CalculateParticleWeight (dLM : LandmarkObs)
    (sig_x sig_y : ℝ) (p : Particle) (predictedLandMarks : List LandmarkObs) :
    Particle :=
  { p with
    weight := weightProd dLM sig_x sig_y predictedLandMarks
      p.associations p.sense_x p.sense_y }

/-- The observation transform of `ParticleFilter::updateWeights`
(lines 180-187): local frame to map frame using the particle pose. -/
noncomputable def transformToMap (p : Particle) (obs : List LandmarkObs) :
    List LandmarkObs :=
  obs.map (fun o =>
    { id := o.id,
      x := p.x + Real.cos p.theta * o.x - Real.sin p.theta * o.y,
      y := p.y + Real.sin p.theta * o.x + Real.cos p.theta * o.y })

/-- The candidate-landmark loop of `ParticleFilter::updateWeights`
(lines 190-202): keep, in scan order, each map landmark strictly within
`sensor_range` of the particle. -/
noncomputable def candidateLandmarks (sensor_range : ℝ) (p : Particle) :
    List MapLandmark → List LandmarkObs
  | [] => []
  | lm :: lms =>
      if distance lm.x_f lm.y_f p.x p.y < sensor_range then
        { id := lm.id_i, x := lm.x_f, y := lm.y_f } ::
          candidateLandmarks sensor_range p lms
      else candidateLandmarks sensor_range p lms

/-- The per-particle body of `ParticleFilter::updateWeights`
(lines 174-218): transform, gather candidates, associate, copy the
associated data into the particle, and score it. -/
noncomputable def scoreParticle (uninitId : Int) (dLM : LandmarkObs)
    (sensor_range sig_x sig_y : ℝ) (observations : List LandmarkObs)
    (m : Map) (p : Particle) : Particle :=
  let obsMap := transformToMap p observations
  let preds := candidateLandmarks sensor_range p m.landmark_list
  let assoc := ParticleFilter.dataAssociation uninitId preds obsMap
  ParticleFilter.CalculateParticleWeight dLM sig_x sig_y
    { p with
      sense_x := assoc.map (fun o => o.x),
      sense_y := assoc.map (fun o => o.y),
      associations := assoc.map (fun o => o.id) } preds

/-- The particle list after the scoring loop of
`ParticleFilter::updateWeights`, before normalization. -/
noncomputable def scoredParticles (uninitId : Int) (dLM : LandmarkObs)
    (sensor_range sig_x sig_y : ℝ) (observations : List LandmarkObs)
    (m : Map) (s : ParticleFilter) : List Particle :=
  s.particles.map (scoreParticle uninitId dLM sensor_range sig_x sig_y observations m)

/-- The pre-normalization weight sum of `ParticleFilter::updateWeights`
(lines 222-226). -/
noncomputable def preNormSum (uninitId : Int) (dLM : LandmarkObs)
    (sensor_range sig_x sig_y : ℝ) (observations : List LandmarkObs)
    (m : Map) (s : ParticleFilter) : ℝ :=
  ((scoredParticles uninitId dLM sensor_range sig_x sig_y observations m s).map
    (fun p => p.weight)).sum

/-- `ParticleFilter::updateWeights` (lines 153-234): score every particle,
then normalize the weights only when the sum exceeds `1e-5`. -/
noncomputable def ParticleFilter.updateWeights (uninitId : Int)
    (dLM : LandmarkObs) (sensor_range sig_x sig_y : ℝ)
    (observations : List LandmarkObs) (m : Map) (s : ParticleFilter) :
    ParticleFilter :=
  { s with
    particles :=
      if preNormSum uninitId dLM sensor_range sig_x sig_y observations m s > 1e-5 then
        (scoredParticles uninitId dLM sensor_range sig_x sig_y observations m s).map
          (fun p =>
            { p with
              weight := p.weight /
                preNormSum uninitId dLM sensor_range sig_x sig_y observations m s })
      else scoredParticles uninitId dLM sensor_range sig_x sig_y observations m s }

/-- Inverse-CDF selection for `std::discrete_distribution` (line 253): given
the weight list and a value `v` in `[0, sum)`, the drawn index is the least
`i` whose prefix sum of weights exceeds `v`. -/
noncomputable def pickIndex : List ℝ → ℝ → Nat
  | [], _ => 0
  | w :: ws, v => if v < w then 0 else pickIndex ws (v - w) + 1

/-- One categorical draw of `std::discrete_distribution` over `weights`,
driven by a uniform `[0,1)` variate `u`. -/
noncomputable def sampleIndex (weights : List ℝ) (u : ℝ) : Nat :=
  pickIndex weights (u * weights.sum)

/-- `ParticleFilter::resample` (lines 236-265): draw `num_particles` indices
from the categorical distribution given by the current weights (draw `n`
driven by the uniform variate `u n`), and replace the population by the
particles at the drawn indices. -/
noncomputable def ParticleFilter.resample (u : Nat → ℝ) (s : ParticleFilter) :
    ParticleFilter :=
  { s with
    particles := (List.range s.num_particles).map (fun n =>
      s.particles.getD
        (sampleIndex (s.particles.map (fun p => p.weight)) (u n))
        particleDefault) }

/-- Test fixture: a single particle at the origin pose with weight 1. -/
def originParticle : Particle :=
  { id := 0, x := 0, y := 0, theta := 0, weight := 1,
    associations := [], sense_x := [], sense_y := [] }

/-- Test fixture: a one-particle filter at the origin. -/
def singleOriginFilter : ParticleFilter :=
  { num_particles := 1, particles := [originParticle], initFlag := true }

/-- Test fixture: a two-particle filter whose weight vector is `[0, 1]`. -/
def oneHotFilter : ParticleFilter :=
  { num_particles := 2, particles := [particleDefault, originParticle],
    initFlag := true }

/-! ### Generic helper lemmas -/

theorem getD_map_lt {α β : Type} (l : List α) (f : α → β) (k : Nat)
    (h : k < l.length) (d : β) (e : α) :
    (l.map f).getD k d = f (l.getD k e) := by
  induction l generalizing k with
  | nil => simp at h
  | cons a t ih =>
    cases k with
    | zero => simp
    | succ k =>
      simp only [List.map_cons, List.getD_cons_succ]
      exact ih k (by simpa using h)

theorem sum_map_div (l : List ℝ) (c : ℝ) :
    (l.map (fun x => x / c)).sum = l.sum / c := by
  induction l with
  | nil => simp
  | cons a t ih => simp [ih, add_div]

/-! ### Claim C1: population produced by init -/

/-- C1 counterexample: the claim asserts that calling the initializer with a
particle count `N > 0` (here `N = 1`) yields a population of exactly `N`
particles, but `ParticleFilter::init` accepts no count and always produces
100 particles. -/
theorem init_count_cex :
    0 < 1 ∧
    (ParticleFilter.init (fun _ => 0) 0 0 0 1 1 1 initialFilter).particles.length ≠ 1 := by
  constructor
  · norm_num
  · simp [ParticleFilter.init, initialFilter]

/-- C1 (amended): `init` ignores any requested particle count: starting
from the default-constructed filter it always produces exactly 100
particles, each with weight 1.0 and sequential identity `n` at position
`n` (hence identities 0..99 are distinct), and it sets the initialized
flag (the `Ready` state). -/
theorem init_population (g : Nat → ℝ) (x y theta std0 std1 std2 : ℝ) :
    (ParticleFilter.init g x y theta std0 std1 std2 initialFilter).particles.length = 100 ∧
    (ParticleFilter.init g x y theta std0 std1 std2 initialFilter).num_particles = 100 ∧
    (ParticleFilter.init g x y theta std0 std1 std2 initialFilter).initFlag = true ∧
    ∀ n, n < 100 →
      ((ParticleFilter.init g x y theta std0 std1 std2 initialFilter).particles.getD n particleDefault).weight = 1 ∧
      ((ParticleFilter.init g x y theta std0 std1 std2 initialFilter).particles.getD n particleDefault).id = n := by
  refine ⟨by simp [ParticleFilter.init, initialFilter], rfl, rfl, ?_⟩
  intro n hn
  have hmap :
      (ParticleFilter.init g x y theta std0 std1 std2 initialFilter).particles =
        (List.range 100).map (fun n : Nat =>
          ({ id := (n : Int),
             x := x + std0 * g (3 * n),
             y := y + std1 * g (3 * n + 1),
             theta := theta + std2 * g (3 * n + 2),
             weight := 1,
             associations := [], sense_x := [], sense_y := [] } : Particle)) := by
    simp [ParticleFilter.init, initialFilter]
  rw [hmap, getD_map_lt _ _ n (by simpa using hn) _ 0]
  simp [List.getD_eq_getElem?_getD, List.getElem?_range hn]

/-- C1 witness: the particle at position 7 of the freshly initialized
population has weight 1 and identity 7. -/
theorem init_population_witness :
    (7 : Nat) < 100 ∧
    ((ParticleFilter.init (fun _ => 0) 0 0 0 1 1 1 initialFilter).particles.getD 7 particleDefault).weight = 1 ∧
    ((ParticleFilter.init (fun _ => 0) 0 0 0 1 1 1 initialFilter).particles.getD 7 particleDefault).id = 7 :=
  ⟨by norm_num,
    (init_population (fun _ => 0) 0 0 0 1 1 1).2.2.2 7 (by norm_num)⟩

/-! ### Claim C7: association against an empty predicted set -/

/-- C7: when the predicted set is empty, `dataAssociation` terminates
normally and leaves every observation with the unset/sentinel identity of
the default-constructed best-fit record, its coordinates unchanged. -/
theorem dataAssociation_empty (uninitId : Int)
    (observations : List LandmarkObs) :
    ParticleFilter.dataAssociation uninitId [] observations =
      observations.map (fun o => { o with id := uninitId }) := rfl

/-! ### Claim C9: candidate landmark set -/

/-- C9: the candidate set built by `updateWeights` consists exactly of the
map landmarks whose Euclidean distance to the particle position is
strictly below `sensor_range` (a landmark at distance exactly
`sensor_range` is excluded), in map scan order. -/
theorem candidateLandmarks_filter (sensor_range : ℝ) (p : Particle)
    (lms : List MapLandmark) :
    candidateLandmarks sensor_range p lms =
      (lms.filter (fun lm => distance lm.x_f lm.y_f p.x p.y < sensor_range)).map
        (fun lm => { id := lm.id_i, x := lm.x_f, y := lm.y_f }) := by
  induction lms with
  | nil => simp [candidateLandmarks]
  | cons lm t ih =>
    by_cases h : distance lm.x_f lm.y_f p.x p.y < sensor_range <;>
      simp [candidateLandmarks, List.filter_cons, h, ih]

/-! ### Prediction helper lemmas -/

theorem predictList_length (g : Nat → ℝ) (dt std0 std1 std2 v yaw_rate : ℝ) :
    ∀ (l : List Particle) (k : Nat),
      (predictList g k dt std0 std1 std2 v yaw_rate l).length = l.length := by
  intro l
  induction l with
  | nil => intro k; rfl
  | cons p t ih => intro k; simp [predictList, ih]

theorem predictList_getD (g : Nat → ℝ) (dt std0 std1 std2 v yaw_rate : ℝ) :
    ∀ (l : List Particle) (k n : Nat), n < l.length →
      (predictList g k dt std0 std1 std2 v yaw_rate l).getD n particleDefault =
        predictOne dt v yaw_rate (std0 * g (k + 3 * n)) (std1 * g (k + 3 * n + 1))
          (std2 * g (k + 3 * n + 2)) (l.getD n particleDefault) := by
  intro l
  induction l with
  | nil => intro k n hn; simp at hn
  | cons p t ih =>
    intro k n hn
    cases n with
    | zero => simp [predictList]
    | succ n =>
      have h3 : k + 3 * (n + 1) = k + 3 + 3 * n := by ring
      have h4 : k + 3 * (n + 1) + 1 = k + 3 + 3 * n + 1 := by ring
      have h5 : k + 3 * (n + 1) + 2 = k + 3 + 3 * n + 2 := by ring
      simp only [predictList, List.getD_cons_succ, h3, h4, h5]
      exact ih (k + 3) n (by simpa using hn)

theorem predictList_zero_noise (g : Nat → ℝ) (dt v yaw_rate : ℝ) :
    ∀ (l : List Particle) (k : Nat),
      predictList g k dt 0 0 0 v yaw_rate l =
        l.map (fun p =>
          if |yaw_rate| > 0.0001 then
            { p with
              x := p.x + v / yaw_rate *
                (Real.sin (p.theta + yaw_rate * dt) - Real.sin p.theta),
              y := p.y + v / yaw_rate *
                (-Real.cos (p.theta + yaw_rate * dt) + Real.cos p.theta),
              theta := p.theta + yaw_rate * dt }
          else
            { p with
              x := p.x + v * Real.cos p.theta * dt,
              y := p.y + v * Real.sin p.theta * dt,
              theta := p.theta + yaw_rate * dt }) := by
  intro l
  induction l with
  | nil => intro k; rfl
  | cons p t ih =>
    intro k
    simp only [predictList, List.map_cons, ih (k + 3)]
    refine congrArg (fun q => q :: _) ?_
    unfold predictOne
    split_ifs with h <;> simp

/-! ### Claim C4: noise-free kinematic model of prediction -/

/-- C4: with all noise standard deviations set to 0, `prediction` applies
exactly the stated kinematic model to every particle: the exact-arc update
when `|yaw_rate|` is above the 0.0001 threshold and the straight-line
update when it is at or below it; in particular from pose (0,0,0) with
v = 1, dt = 1, yaw_rate = 0 the result is pose (1,0,0). -/
theorem prediction_noise_free (g : Nat → ℝ) (dt v yaw_rate : ℝ)
    (s : ParticleFilter) :
    ((ParticleFilter.prediction g dt 0 0 0 v yaw_rate s).particles =
      s.particles.map (fun p =>
        if |yaw_rate| > 0.0001 then
          { p with
            x := p.x + v / yaw_rate *
              (Real.sin (p.theta + yaw_rate * dt) - Real.sin p.theta),
            y := p.y + v / yaw_rate *
              (-Real.cos (p.theta + yaw_rate * dt) + Real.cos p.theta),
            theta := p.theta + yaw_rate * dt }
        else
          { p with
            x := p.x + v * Real.cos p.theta * dt,
            y := p.y + v * Real.sin p.theta * dt,
            theta := p.theta + yaw_rate * dt })) ∧
    (ParticleFilter.prediction g 1 0 0 0 1 0 singleOriginFilter).particles =
      [{ id := 0, x := 1, y := 0, theta := 0, weight := 1,
         associations := [], sense_x := [], sense_y := [] }] := by
  constructor
  · exact predictList_zero_noise g dt v yaw_rate s.particles 0
  · have habs : ¬ (|(0 : ℝ)| > 0.0001) := by
      rw [abs_zero]; norm_num
    simp [ParticleFilter.prediction, singleOriginFilter, originParticle,
      predictList, predictOne, habs, Real.cos_zero, Real.sin_zero]
    norm_num

/-! ### Claim C10: fresh default-seeded generator on every call -/

/-- C10: every call of `init`, `prediction` and `resample`
default-constructs a fresh `std::default_random_engine`, modelled here by
the fact that every call reads the same fixed draw stream `g` from index 0.
Consequently the operations are functions of (arguments, prior state)
alone — two calls with identical arguments and prior state are literally
the same value — and the injected noise repeats identically across
successive calls: with velocity 0 and yaw rate 0 (so the deterministic
motion term vanishes), the pose increments of a second `prediction` call
equal those of the first call, particle by particle. -/
theorem rng_reset_determinism (g : Nat → ℝ) (dt std0 std1 std2 : ℝ)
    (s : ParticleFilter) (n : Nat) (hn : n < s.particles.length) :
    (ParticleFilter.init g 0 0 0 std0 std1 std2 initialFilter =
      ParticleFilter.init g 0 0 0 std0 std1 std2 initialFilter) ∧
    (ParticleFilter.resample (fun k => g k) s =
      ParticleFilter.resample (fun k => g k) s) ∧
    (((ParticleFilter.prediction g dt std0 std1 std2 0 0
          (ParticleFilter.prediction g dt std0 std1 std2 0 0 s)).particles.getD n particleDefault).x -
        ((ParticleFilter.prediction g dt std0 std1 std2 0 0 s).particles.getD n particleDefault).x =
      ((ParticleFilter.prediction g dt std0 std1 std2 0 0 s).particles.getD n particleDefault).x -
        (s.particles.getD n particleDefault).x) ∧
    (((ParticleFilter.prediction g dt std0 std1 std2 0 0
          (ParticleFilter.prediction g dt std0 std1 std2 0 0 s)).particles.getD n particleDefault).y -
        ((ParticleFilter.prediction g dt std0 std1 std2 0 0 s).particles.getD n particleDefault).y =
      ((ParticleFilter.prediction g dt std0 std1 std2 0 0 s).particles.getD n particleDefault).y -
        (s.particles.getD n particleDefault).y) ∧
    (((ParticleFilter.prediction g dt std0 std1 std2 0 0
          (ParticleFilter.prediction g dt std0 std1 std2 0 0 s)).particles.getD n particleDefault).theta -
        ((ParticleFilter.prediction g dt std0 std1 std2 0 0 s).particles.getD n particleDefault).theta =
      ((ParticleFilter.prediction g dt std0 std1 std2 0 0 s).particles.getD n particleDefault).theta -
        (s.particles.getD n particleDefault).theta) := by
  have habs : ¬ (|(0 : ℝ)| > 0.0001) := by
    rw [abs_zero]; norm_num
  have hlen1 : n < (ParticleFilter.prediction g dt std0 std1 std2 0 0 s).particles.length := by
    simpa [ParticleFilter.prediction, predictList_length] using hn
  have h1 := predictList_getD g dt std0 std1 std2 0 0 s.particles 0 n hn
  have h2 := predictList_getD g dt std0 std1 std2 0 0
    (ParticleFilter.prediction g dt std0 std1 std2 0 0 s).particles 0 n hlen1
  refine ⟨rfl, rfl, ?_, ?_, ?_⟩ <;>
    · simp only [ParticleFilter.prediction] at h1 h2 ⊢
      rw [h2, h1, predictOne, predictOne]
      simp [habs]

/-- C10 witness: noise repetition across two successive `prediction` calls
at a concrete one-particle state and a concrete draw stream. -/
theorem rng_reset_determinism_witness :
    0 < singleOriginFilter.particles.length ∧
    ((ParticleFilter.prediction (fun k => (k : ℝ)) 1 1 1 1 0 0
        (ParticleFilter.prediction (fun k => (k : ℝ)) 1 1 1 1 0 0 singleOriginFilter)).particles.getD 0 particleDefault).x -
      ((ParticleFilter.prediction (fun k => (k : ℝ)) 1 1 1 1 0 0 singleOriginFilter).particles.getD 0 particleDefault).x =
    ((ParticleFilter.prediction (fun k => (k : ℝ)) 1 1 1 1 0 0 singleOriginFilter).particles.getD 0 particleDefault).x -
      (singleOriginFilter.particles.getD 0 particleDefault).x :=
  ⟨by norm_num [singleOriginFilter],
    (rng_reset_determinism (fun k => (k : ℝ)) 1 1 1 1 singleOriginFilter 0
      (by norm_num [singleOriginFilter])).2.2.1⟩

/-! ### Claim C3: observation transform inside updateWeights -/

theorem scoreParticle_senses (uninitId : Int) (dLM : LandmarkObs)
    (sensor_range sig_x sig_y : ℝ) (observations : List LandmarkObs)
    (m : Map) (p : Particle) :
    (scoreParticle uninitId dLM sensor_range sig_x sig_y observations m p).sense_x =
      observations.map (fun o =>
        p.x + Real.cos p.theta * o.x - Real.sin p.theta * o.y) ∧
    (scoreParticle uninitId dLM sensor_range sig_x sig_y observations m p).sense_y =
      observations.map (fun o =>
        p.y + Real.sin p.theta * o.x + Real.cos p.theta * o.y) := by
  constructor <;>
    simp [scoreParticle, ParticleFilter.CalculateParticleWeight,
      ParticleFilter.dataAssociation, transformToMap, List.map_map,
      Function.comp]

/-- C3: inside `updateWeights`, every raw observation is transformed from
the vehicle frame to the map frame with the particle pose — rotation by
`theta` (matrix rows `(cos theta, -sin theta)` and `(sin theta, cos theta)`)
applied to the observation and then translation by `(x, y)` — for every
particle and every observation: the recorded map-frame coordinates of
particle `p` are exactly `p.x + cos(p.theta)*o.x - sin(p.theta)*o.y` and
`p.y + sin(p.theta)*o.x + cos(p.theta)*o.y`. -/
theorem updateWeights_transform (uninitId : Int) (dLM : LandmarkObs)
    (sensor_range sig_x sig_y : ℝ) (observations : List LandmarkObs)
    (m : Map) (s : ParticleFilter) :
    ((ParticleFilter.updateWeights uninitId dLM sensor_range sig_x sig_y
        observations m s).particles.map (fun q => q.sense_x) =
      s.particles.map (fun p => observations.map (fun o =>
        p.x + Real.cos p.theta * o.x - Real.sin p.theta * o.y))) ∧
    ((ParticleFilter.updateWeights uninitId dLM sensor_range sig_x sig_y
        observations m s).particles.map (fun q => q.sense_y) =
      s.particles.map (fun p => observations.map (fun o =>
        p.y + Real.sin p.theta * o.x + Real.cos p.theta * o.y))) := by
  have hx : ∀ p : Particle,
      (scoreParticle uninitId dLM sensor_range sig_x sig_y observations m p).sense_x =
        observations.map (fun o =>
          p.x + Real.cos p.theta * o.x - Real.sin p.theta * o.y) :=
    fun p => (scoreParticle_senses uninitId dLM sensor_range sig_x sig_y
      observations m p).1
  have hy : ∀ p : Particle,
      (scoreParticle uninitId dLM sensor_range sig_x sig_y observations m p).sense_y =
        observations.map (fun o =>
          p.y + Real.sin p.theta * o.x + Real.cos p.theta * o.y) :=
    fun p => (scoreParticle_senses uninitId dLM sensor_range sig_x sig_y
      observations m p).2
  unfold ParticleFilter.updateWeights
  split_ifs with h <;>
    constructor <;>
      simp [scoredParticles, List.map_map, Function.comp, hx, hy]

/-! ### Claim C5: weight normalization in updateWeights -/

theorem map_weight_div_sum (l : List Particle) (S : ℝ) (hS : S ≠ 0)
    (hsum : (l.map (fun p => p.weight)).sum = S) :
    ((l.map (fun p => { p with weight := p.weight / S })).map
      (fun p => p.weight)).sum = 1 := by
  have hmm :
      (l.map (fun p => ({ p with weight := p.weight / S } : Particle))).map
          (fun p => p.weight) =
        (l.map (fun p => p.weight)).map (fun w => w / S) := by
    simp [List.map_map, Function.comp]
  rw [hmm, sum_map_div, hsum, div_self hS]

/-- C5: after the scoring loop of `updateWeights`, if the pre-normalization
weight sum exceeds `1e-5` then every weight is divided by that sum and the
post-call weights sum to exactly 1; otherwise the particle list (weights
included) is left exactly as scored, unmodified. -/
theorem updateWeights_normalization (uninitId : Int) (dLM : LandmarkObs)
    (sensor_range sig_x sig_y : ℝ) (observations : List LandmarkObs)
    (m : Map) (s : ParticleFilter) :
    (preNormSum uninitId dLM sensor_range sig_x sig_y observations m s > 1e-5 →
      (((ParticleFilter.updateWeights uninitId dLM sensor_range sig_x sig_y
          observations m s).particles.map (fun p => p.weight)).sum = 1)) ∧
    (¬ preNormSum uninitId dLM sensor_range sig_x sig_y observations m s > 1e-5 →
      (ParticleFilter.updateWeights uninitId dLM sensor_range sig_x sig_y
          observations m s).particles =
        scoredParticles uninitId dLM sensor_range sig_x sig_y observations m s) := by
  constructor
  · intro h
    have hS : preNormSum uninitId dLM sensor_range sig_x sig_y observations m s ≠ 0 :=
      ne_of_gt (lt_trans (by norm_num) h)
    unfold ParticleFilter.updateWeights
    rw [if_pos h]
    exact map_weight_div_sum _ _ hS rfl
  · intro h
    unfold ParticleFilter.updateWeights
    rw [if_neg h]

/-- C5 witness: a concrete one-particle filter with no observations scores
weight 1, so the pre-normalization sum 1 exceeds the `1e-5` threshold and
the post-call weights sum to 1. -/
theorem updateWeights_normalization_witness :
    preNormSum 0 obsDefault 1 1 1 [] ⟨[]⟩ singleOriginFilter > 1e-5 ∧
    (((ParticleFilter.updateWeights 0 obsDefault 1 1 1 [] ⟨[]⟩
        singleOriginFilter).particles.map (fun p => p.weight)).sum = 1) := by
  have hS : preNormSum 0 obsDefault 1 1 1 [] ⟨[]⟩ singleOriginFilter > 1e-5 := by
    simp [preNormSum, scoredParticles, scoreParticle, transformToMap,
      candidateLandmarks, ParticleFilter.dataAssociation,
      ParticleFilter.CalculateParticleWeight, weightProd,
      singleOriginFilter, originParticle]
    norm_num
  exact ⟨hS,
    (updateWeights_normalization 0 obsDefault 1 1 1 [] ⟨[]⟩ singleOriginFilter).1 hS⟩

/-! ### Claim C2: nearest-neighbor association -/

theorem getD_mem_of_lt {α : Type} (l : List α) (n : Nat) (h : n < l.length)
    (d : α) : l.getD n d ∈ l := by
  induction l generalizing n with
  | nil => simp at h
  | cons a t ih =>
    cases n with
    | zero => simp
    | succ n =>
      simp only [List.getD_cons_succ]
      exact List.mem_cons_of_mem a (ih n (by simpa using h))

theorem bestFold_keep (ox oy : ℝ) :
    ∀ (l : List LandmarkObs) (b0 : LandmarkObs) (m0 : ℝ),
      (∀ p ∈ l, ¬ distance p.x p.y ox oy < m0) →
      l.foldl (bestFitFold ox oy) (b0, m0) = (b0, m0) := by
  intro l
  induction l with
  | nil => intro b0 m0 _; rfl
  | cons p t ih =>
    intro b0 m0 h
    have hp : ¬ distance p.x p.y ox oy < m0 := h p (by simp)
    have hstep : bestFitFold ox oy (b0, m0) p = (b0, m0) := by
      simp [bestFitFold, hp]
    rw [List.foldl_cons, hstep]
    exact ih b0 m0 (fun q hq => h q (by simp [hq]))

theorem bestFold_found (ox oy : ℝ) :
    ∀ (l : List LandmarkObs) (b0 : LandmarkObs) (m0 : ℝ),
      (∃ p ∈ l, distance p.x p.y ox oy < m0) →
      ∃ i, i < l.length ∧
        l.foldl (bestFitFold ox oy) (b0, m0) =
          (l.getD i obsDefault,
            distance (l.getD i obsDefault).x (l.getD i obsDefault).y ox oy) ∧
        distance (l.getD i obsDefault).x (l.getD i obsDefault).y ox oy < m0 ∧
        (∀ j, j < l.length →
          distance (l.getD i obsDefault).x (l.getD i obsDefault).y ox oy ≤
            distance (l.getD j obsDefault).x (l.getD j obsDefault).y ox oy) ∧
        (∀ j, j < i →
          distance (l.getD i obsDefault).x (l.getD i obsDefault).y ox oy <
            distance (l.getD j obsDefault).x (l.getD j obsDefault).y ox oy) := by
  intro l
  induction l with
  | nil =>
    rintro b0 m0 ⟨p, hp, _⟩
    simp at hp
  | cons p t ih =>
    intro b0 m0 hex
    rw [List.foldl_cons]
    by_cases hd : distance p.x p.y ox oy < m0
    · have hstep : bestFitFold ox oy (b0, m0) p = (p, distance p.x p.y ox oy) := by
        simp [bestFitFold, hd]
      rw [hstep]
      by_cases hex2 : ∃ q ∈ t, distance q.x q.y ox oy < distance p.x p.y ox oy
      · obtain ⟨i, hi, hfold, hlt, hminp, hfirst⟩ :=
          ih p (distance p.x p.y ox oy) hex2
        refine ⟨i + 1, by simp only [List.length_cons]; omega, ?_, ?_, ?_, ?_⟩
        · simpa [List.getD_cons_succ] using hfold
        · simp only [List.getD_cons_succ]
          exact lt_trans hlt hd
        · intro j hj
          cases j with
          | zero =>
            simp only [List.getD_cons_succ, List.getD_cons_zero]
            exact le_of_lt hlt
          | succ j =>
            simp only [List.getD_cons_succ]
            refine hminp j ?_
            simp only [List.length_cons] at hj
            omega
        · intro j hj
          cases j with
          | zero =>
            simp only [List.getD_cons_succ, List.getD_cons_zero]
            exact hlt
          | succ j =>
            simp only [List.getD_cons_succ]
            exact hfirst j (by omega)
      · have hall : ∀ q ∈ t, ¬ distance q.x q.y ox oy < distance p.x p.y ox oy :=
          fun q hq hlt2 => hex2 ⟨q, hq, hlt2⟩
        have hkeep := bestFold_keep ox oy t p (distance p.x p.y ox oy) hall
        refine ⟨0, by simp, ?_, ?_, ?_, ?_⟩
        · simpa [List.getD_cons_zero] using hkeep
        · simpa [List.getD_cons_zero] using hd
        · intro j hj
          cases j with
          | zero => simp
          | succ j =>
            simp only [List.getD_cons_succ, List.getD_cons_zero]
            refine not_lt.mp (hall _ (getD_mem_of_lt t j ?_ obsDefault))
            simp only [List.length_cons] at hj
            omega
        · intro j hj
          exact absurd hj (Nat.not_lt_zero j)
    · have hstep : bestFitFold ox oy (b0, m0) p = (b0, m0) := by
        simp [bestFitFold, hd]
      rw [hstep]
      have hex2 : ∃ q ∈ t, distance q.x q.y ox oy < m0 := by
        obtain ⟨q, hq, hlt⟩ := hex
        rcases List.mem_cons.mp hq with h1 | h2
        · exact absurd (h1 ▸ hlt) hd
        · exact ⟨q, h2, hlt⟩
      obtain ⟨i, hi, hfold, hlt, hminp, hfirst⟩ := ih b0 m0 hex2
      have hpm : m0 ≤ distance p.x p.y ox oy := not_lt.mp hd
      refine ⟨i + 1, by simp only [List.length_cons]; omega, ?_, ?_, ?_, ?_⟩
      · simpa [List.getD_cons_succ] using hfold
      · simpa [List.getD_cons_succ] using hlt
      · intro j hj
        cases j with
        | zero =>
          simp only [List.getD_cons_succ, List.getD_cons_zero]
          exact le_of_lt (lt_of_lt_of_le hlt hpm)
        | succ j =>
          simp only [List.getD_cons_succ]
          refine hminp j ?_
          simp only [List.length_cons] at hj
          omega
      · intro j hj
        cases j with
        | zero =>
          simp only [List.getD_cons_succ, List.getD_cons_zero]
          exact lt_of_lt_of_le hlt hpm
        | succ j =>
          simp only [List.getD_cons_succ]
          exact hfirst j (by omega)

/-- C2 counterexample: with the single predicted entry of identity 7 at
distance 10^51 (at least the 9.9e50 initial best-distance bound) from the
observation, `dataAssociation` keeps the sentinel identity of the
default-constructed best fit (here 0) instead of assigning the identity 7
of the (unique, hence distance-minimizing) predicted entry. -/
theorem dataAssociation_min_cex :
    ((ParticleFilter.dataAssociation 0
        [({ id := 7, x := 10 ^ 51, y := 0 } : LandmarkObs)]
        [({ id := 3, x := 0, y := 0 } : LandmarkObs)]).map (fun o => o.id) =
      [0]) ∧
    (∀ p ∈ [({ id := 7, x := (10 : ℝ) ^ 51, y := 0 } : LandmarkObs)],
      p.id = 7) ∧
    (0 : Int) ≠ 7 := by
  refine ⟨?_, ?_, by decide⟩
  · have hdist : distance ((10 : ℝ) ^ 51) 0 0 0 = 10 ^ 51 := by
      unfold distance
      have h : ((0 : ℝ) - 10 ^ 51) ^ 2 + ((0 : ℝ) - 0) ^ 2 =
          ((10 : ℝ) ^ 51) ^ 2 := by ring
      rw [h, Real.sqrt_sq (by positivity)]
    have hnotlt : ¬ ((10 : ℝ) ^ 51 < 9.9e50) := by norm_num
    simp [ParticleFilter.dataAssociation, bestFitFold, hdist, hnotlt]
  · intro p hp
    simp only [List.mem_singleton] at hp
    subst hp
    rfl

/-- C2 (amended): for every observation such that some predicted entry lies
at distance strictly below the 9.9e50 initial best-distance bound,
`dataAssociation` assigns that observation the identity of the predicted
entry minimizing the distance, scanning the full predicted set; when two or
more predicted entries are equidistant at the minimum, the first-scanned
one wins; the resolver changes only identity fields (coordinates and list
length are preserved; the predicted set, received by value, is never
mutated).  When every predicted entry lies at distance 9.9e50 or more, the
sentinel identity of the default-constructed best fit is kept instead. -/
theorem dataAssociation_nearest (uninitId : Int)
    (predicted observations : List LandmarkObs) (k : Nat)
    (hk : k < observations.length)
    (hnear : ∃ p ∈ predicted,
      distance p.x p.y (observations.getD k obsDefault).x
        (observations.getD k obsDefault).y < 9.9e50) :
    (ParticleFilter.dataAssociation uninitId predicted observations).length =
      observations.length ∧
    ((ParticleFilter.dataAssociation uninitId predicted observations).getD k obsDefault).x =
      (observations.getD k obsDefault).x ∧
    ((ParticleFilter.dataAssociation uninitId predicted observations).getD k obsDefault).y =
      (observations.getD k obsDefault).y ∧
    ∃ i, i < predicted.length ∧
      ((ParticleFilter.dataAssociation uninitId predicted observations).getD k obsDefault).id =
        (predicted.getD i obsDefault).id ∧
      (∀ j, j < predicted.length →
        distance (predicted.getD i obsDefault).x (predicted.getD i obsDefault).y
            (observations.getD k obsDefault).x (observations.getD k obsDefault).y ≤
          distance (predicted.getD j obsDefault).x (predicted.getD j obsDefault).y
            (observations.getD k obsDefault).x (observations.getD k obsDefault).y) ∧
      (∀ j, j < i →
        distance (predicted.getD i obsDefault).x (predicted.getD i obsDefault).y
            (observations.getD k obsDefault).x (observations.getD k obsDefault).y <
          distance (predicted.getD j obsDefault).x (predicted.getD j obsDefault).y
            (observations.getD k obsDefault).x (observations.getD k obsDefault).y) := by
  have hgd :
      (ParticleFilter.dataAssociation uninitId predicted observations).getD k obsDefault =
        { observations.getD k obsDefault with
          id := (predicted.foldl
            (bestFitFold (observations.getD k obsDefault).x
              (observations.getD k obsDefault).y)
            ({ id := uninitId, x := 0, y := 0 }, 9.9e50)).1.id } := by
    unfold ParticleFilter.dataAssociation
    rw [getD_map_lt observations _ k hk obsDefault obsDefault]
  obtain ⟨i, hi, hfold, hlt, hminp, hfirst⟩ :=
    bestFold_found (observations.getD k obsDefault).x
      (observations.getD k obsDefault).y predicted
      { id := uninitId, x := 0, y := 0 } (9.9e50) hnear
  refine ⟨by simp [ParticleFilter.dataAssociation], ?_, ?_, i, hi, ?_, hminp, hfirst⟩
  · rw [hgd]
  · rw [hgd]
  · rw [hgd, hfold]

/-- C2 witness: a concrete association of one observation at the origin
against two predicted entries at distances 0 and 3; the hypotheses of the
amended claim hold and the assigned identity is that of a first-scanned
minimizing entry. -/
theorem dataAssociation_nearest_witness :
    (0 : Nat) < ([({ id := 3, x := 0, y := 0 } : LandmarkObs)]).length ∧
    (∃ p ∈ [({ id := 1, x := 0, y := 0 } : LandmarkObs),
        ({ id := 2, x := 3, y := 0 } : LandmarkObs)],
      distance p.x p.y 0 0 < 9.9e50) ∧
    (∃ i, i < ([({ id := 1, x := 0, y := 0 } : LandmarkObs),
        ({ id := 2, x := 3, y := 0 } : LandmarkObs)]).length ∧
      ((ParticleFilter.dataAssociation (-1)
          [({ id := 1, x := 0, y := 0 } : LandmarkObs),
            ({ id := 2, x := 3, y := 0 } : LandmarkObs)]
          [({ id := 3, x := 0, y := 0 } : LandmarkObs)]).getD 0 obsDefault).id =
        (([({ id := 1, x := 0, y := 0 } : LandmarkObs),
            ({ id := 2, x := 3, y := 0 } : LandmarkObs)]).getD i obsDefault).id ∧
      (∀ j, j < ([({ id := 1, x := 0, y := 0 } : LandmarkObs),
          ({ id := 2, x := 3, y := 0 } : LandmarkObs)]).length →
        distance (([({ id := 1, x := 0, y := 0 } : LandmarkObs),
              ({ id := 2, x := 3, y := 0 } : LandmarkObs)]).getD i obsDefault).x
            (([({ id := 1, x := 0, y := 0 } : LandmarkObs),
              ({ id := 2, x := 3, y := 0 } : LandmarkObs)]).getD i obsDefault).y
            0 0 ≤
          distance (([({ id := 1, x := 0, y := 0 } : LandmarkObs),
              ({ id := 2, x := 3, y := 0 } : LandmarkObs)]).getD j obsDefault).x
            (([({ id := 1, x := 0, y := 0 } : LandmarkObs),
              ({ id := 2, x := 3, y := 0 } : LandmarkObs)]).getD j obsDefault).y
            0 0) ∧
      (∀ j, j < i →
        distance (([({ id := 1, x := 0, y := 0 } : LandmarkObs),
              ({ id := 2, x := 3, y := 0 } : LandmarkObs)]).getD i obsDefault).x
            (([({ id := 1, x := 0, y := 0 } : LandmarkObs),
              ({ id := 2, x := 3, y := 0 } : LandmarkObs)]).getD i obsDefault).y
            0 0 <
          distance (([({ id := 1, x := 0, y := 0 } : LandmarkObs),
              ({ id := 2, x := 3, y := 0 } : LandmarkObs)]).getD j obsDefault).x
            (([({ id := 1, x := 0, y := 0 } : LandmarkObs),
              ({ id := 2, x := 3, y := 0 } : LandmarkObs)]).getD j obsDefault).y
            0 0)) := by
  have hdist0 : distance (0 : ℝ) 0 0 0 < 9.9e50 := by
    unfold distance
    norm_num
  refine ⟨by norm_num, ⟨{ id := 1, x := 0, y := 0 }, by simp, hdist0⟩, ?_⟩
  exact (dataAssociation_nearest (-1)
    [({ id := 1, x := 0, y := 0 } : LandmarkObs),
      ({ id := 2, x := 3, y := 0 } : LandmarkObs)]
    [({ id := 3, x := 0, y := 0 } : LandmarkObs)] 0 (by norm_num)
    ⟨{ id := 1, x := 0, y := 0 }, by simp, hdist0⟩).2.2.2

/-! ### Claim C6: weighted resampling -/

theorem pickIndex_one_hot :
    ∀ (a b : Nat) (v : ℝ), 0 ≤ v → v < 1 →
      pickIndex (List.replicate a 0 ++ 1 :: List.replicate b 0) v = a := by
  intro a
  induction a with
  | zero =>
    intro b v h0 h1
    simp [pickIndex, h1]
  | succ a ih =>
    intro b v h0 h1
    have hnot : ¬ v < (0 : ℝ) := not_lt.mpr h0
    simp [List.replicate_succ, pickIndex, hnot, sub_zero, ih b v h0 h1]

/-- C6: `resample` always produces exactly `num_particles` particles, each
a copy of a particle drawn from the current population by inverse-CDF
categorical sampling over the weights; when the weight vector is one-hot
(a single particle holds weight 1 and all others 0), every uniform draw in
`[0,1)` selects that particle, so the new population consists entirely of
copies of it. -/
theorem resample_one_hot (u : Nat → ℝ) (s : ParticleFilter) (a b : Nat)
    (hu : ∀ k, 0 ≤ u k ∧ u k < 1)
    (hw : s.particles.map (fun p => p.weight) =
      List.replicate a 0 ++ 1 :: List.replicate b 0) :
    (ParticleFilter.resample u s).particles.length = s.num_particles ∧
    a < s.particles.length ∧
    (ParticleFilter.resample u s).particles =
      List.replicate s.num_particles (s.particles.getD a particleDefault) := by
  have hlen : s.particles.length = a + (b + 1) := by
    have hc := congrArg List.length hw
    simpa using hc
  have hsum : (s.particles.map (fun p => p.weight)).sum = 1 := by
    rw [hw]; simp
  have hidx : ∀ n : Nat,
      sampleIndex (s.particles.map (fun p => p.weight)) (u n) = a := by
    intro n
    unfold sampleIndex
    rw [hsum, mul_one, hw]
    exact pickIndex_one_hot a b (u n) (hu n).1 (hu n).2
  refine ⟨by simp [ParticleFilter.resample], by omega, ?_⟩
  unfold ParticleFilter.resample
  rw [List.eq_replicate_iff]
  constructor
  · simp
  · intro q hq
    simp only [List.mem_map] at hq
    obtain ⟨n, hn, hq2⟩ := hq
    rw [← hq2, hidx n]

/-- C6 witness: on the concrete two-particle filter with weight vector
`[0, 1]` and the constant uniform stream 1/2, resampling yields two copies
of the particle at index 1. -/
theorem resample_one_hot_witness :
    ((0 : ℝ) ≤ 1 / 2 ∧ (1 : ℝ) / 2 < 1) ∧
    oneHotFilter.particles.map (fun p => p.weight) =
      List.replicate 1 0 ++ 1 :: List.replicate 0 0 ∧
    (ParticleFilter.resample (fun _ => 1 / 2) oneHotFilter).particles =
      List.replicate oneHotFilter.num_particles
        (oneHotFilter.particles.getD 1 particleDefault) := by
  have hw : oneHotFilter.particles.map (fun p => p.weight) =
      List.replicate 1 0 ++ 1 :: List.replicate 0 0 := by
    simp [oneHotFilter, particleDefault, originParticle]
  refine ⟨by norm_num, hw, ?_⟩
  exact (resample_one_hot (fun _ => 1 / 2) oneHotFilter 1 0
    (fun k => by norm_num) hw).2.2

/-! ### Claim C8: association id missing from the candidate set -/

/-- C8 (code-bug exhibit): when an association id (here 5) is absent from
the candidate set (here empty), `CalculateParticleWeight` still multiplies
a Gaussian factor evaluated at the coordinates of the default-constructed
(in C++, uninitialized) `pred_LM_match` — modelled by `dLM`, here at the
origin — instead of contributing no factor: the resulting weight is
`1/(2*pi)`, not the empty product 1 asserted by the claim. -/
theorem missing_landmark_weight :
    (ParticleFilter.CalculateParticleWeight obsDefault 1 1
        { id := 0, x := 0, y := 0, theta := 0, weight := 1,
          associations := [5], sense_x := [0], sense_y := [0] } []).weight =
      1 / (2 * Real.pi) ∧
    1 / (2 * Real.pi) ≠ 1 := by
  constructor
  · simp [ParticleFilter.CalculateParticleWeight, weightProd, findPred,
      multiv_prob, obsDefault, Real.exp_zero]
  · have hlt : 1 / (2 * Real.pi) < 1 := by
      rw [div_lt_one (by positivity)]
      nlinarith [Real.pi_gt_three]
    exact ne_of_lt hlt
